import Mathlib

/-!
Verification development for the image2nord repository (src/src/main.rs).

The repository ships a single Rust source file, `main.rs`.  The `colors`
module (RgbColor, NordOptions and the palette transform) and the
`lru_time_cache` crate backing `ImageCache` are not part of the sources,
so those pieces are modelled from the specification (each such definition
carries a doc comment starting with "Modelled from the spec:").  Everything
else is translated directly from `main.rs`.

Strings are embedded as `List Char`; Rust's `str::split('-')` becomes
`splitOnChar '-'`; fallible operations return `Option`/`Except`; a Rust
panic (an `unwrap`/`expect`/`panic!` firing) is an explicit `panicked`
outcome.  Handlers are pure functions from their decoded inputs plus an
oracle record (modal submissions, message existence, fetch success) to a
list of externally visible effects and an outcome.
-/

/-! ### Character and digit primitives -/

def digitChar (d : ℕ) : Char :=
  if d < 10 then Char.ofNat (48 + d) else '*'

def charDigitVal (c : Char) : ℕ := c.toNat - 48

theorem digitChar_spec : ∀ d, d < 10 →
    (digitChar d).isDigit = true ∧ charDigitVal (digitChar d) = d ∧
    digitChar d ≠ '-' ∧ digitChar d ≠ '+' := by decide

/-- Lowercase hex digit for a value below 16. -/
def hexDigitChar (d : ℕ) : Char :=
  if d < 10 then Char.ofNat (48 + d)
  else if d < 16 then Char.ofNat (87 + d)
  else '*'

/-- Numeric value of a hex digit, accepting both cases (Rust
`from_str_radix(_, 16)`). -/
def fromHexDigit (c : Char) : Option (Fin 16) :=
  let n := c.toNat
  if h1 : 48 ≤ n ∧ n ≤ 57 then some ⟨n - 48, by omega⟩
  else if h2 : 97 ≤ n ∧ n ≤ 102 then some ⟨n - 87, by omega⟩
  else if h3 : 65 ≤ n ∧ n ≤ 70 then some ⟨n - 55, by omega⟩
  else none

theorem fromHexDigit_hexDigitChar : ∀ d, (h : d < 16) →
    fromHexDigit (hexDigitChar d) = some ⟨d, h⟩ := by decide

theorem hexDigitChar_spec : ∀ d, d < 16 →
    hexDigitChar d ≠ '-' ∧ hexDigitChar d ≠ '#' := by decide

/-! ### Splitting on a delimiter (Rust `str::split`) -/

/-- `splitOnChar sep l` mirrors Rust's `l.split(sep)`: the list of
(possibly empty) segments between occurrences of `sep`.  It is never
empty. -/
def splitOnChar (sep : Char) : List Char → List (List Char)
  | [] => [[]]
  | c :: rest =>
    if c = sep then [] :: splitOnChar sep rest
    else (c :: (splitOnChar sep rest).headD []) :: (splitOnChar sep rest).tail

theorem splitOnChar_ne_nil (sep : Char) (l : List Char) : splitOnChar sep l ≠ [] := by
  induction l with
  | nil => simp [splitOnChar]
  | cons c rest ih => by_cases hc : c = sep <;> simp [splitOnChar, hc]

theorem splitOnChar_no_sep (sep : Char) (l : List Char) (h : sep ∉ l) :
    splitOnChar sep l = [l] := by
  induction l with
  | nil => rfl
  | cons c rest ih =>
    have hc : c ≠ sep := fun hcc => h (hcc ▸ List.mem_cons_self c rest)
    have hrest : sep ∉ rest := fun hm => h (List.mem_cons_of_mem c hm)
    simp [splitOnChar, hc, ih hrest]

theorem splitOnChar_append_sep (sep : Char) (xs ys : List Char) (h : sep ∉ xs) :
    splitOnChar sep (xs ++ sep :: ys) = xs :: splitOnChar sep ys := by
  induction xs with
  | nil => simp [splitOnChar]
  | cons c rest ih =>
    have hc : c ≠ sep := fun hcc => h (hcc ▸ List.mem_cons_self c rest)
    have hrest : sep ∉ rest := fun hm => h (List.mem_cons_of_mem c hm)
    simp [splitOnChar, hc, ih hrest]

/-! ### Unsigned integer parsing (Rust `str::parse::<u64>`) -/

/-- Drop a single leading `'+'`, as Rust's unsigned `from_str` does. -/
def stripPlus (l : List Char) : List Char :=
  match l with
  | [] => []
  | c :: r => if c = '+' then r else c :: r

/-- Faithful model of Rust `str::parse::<u64>()`: optional leading `'+'`,
then one or more decimal digits, value below `2^64` (otherwise overflow
error). -/
def parseU64 (l : List Char) : Option ℕ :=
  let t := stripPlus l
  if t = [] then none
  else if t.all Char.isDigit then
    let v := t.foldl (fun a c => a * 10 + charDigitVal c) 0
    if v < 18446744073709551616 then some v else none
  else none

/-- Little-endian base-10 digits with explicit fuel (structurally
recursive, so concrete tokens evaluate inside the kernel). -/
def natDigitsAux : ℕ → ℕ → List ℕ
  | 0, _ => []
  | fuel + 1, n => if n = 0 then [] else n % 10 :: natDigitsAux fuel (n / 10)

theorem natDigitsAux_eq_digits : ∀ fuel n, n ≤ fuel → natDigitsAux fuel n = Nat.digits 10 n := by
  intro fuel
  induction fuel with
  | zero =>
    intro n hn
    have : n = 0 := Nat.le_zero.mp hn
    subst this
    simp [natDigitsAux]
  | succ f ih =>
    intro n hn
    by_cases h0 : n = 0
    · subst h0; simp [natDigitsAux]
    · have hdiv : n / 10 ≤ f := by
        have : n / 10 < n := Nat.div_lt_self (Nat.pos_of_ne_zero h0) (by norm_num)
        omega
      rw [natDigitsAux, if_neg h0, ih _ hdiv,
        Nat.digits_def' (by norm_num : 1 < 10) (Nat.pos_of_ne_zero h0)]

/-- Decimal rendering of a natural number (Rust's `Display` for integers),
as a character list. -/
def natToChars (n : ℕ) : List Char :=
  if n = 0 then ['0'] else ((natDigitsAux n n).reverse).map digitChar

theorem natToChars_eq (n : ℕ) :
    natToChars n = if n = 0 then ['0'] else ((Nat.digits 10 n).reverse).map digitChar := by
  unfold natToChars
  rw [natDigitsAux_eq_digits n n le_rfl]

theorem foldl_base10 (a : ℕ) (L : List ℕ) :
    List.foldl (fun acc d => acc * 10 + d) a L.reverse =
      a * 10 ^ L.length + Nat.ofDigits 10 L := by
  induction L generalizing a with
  | nil => simp
  | cons d T ih =>
    simp only [List.reverse_cons, List.foldl_append, ih, List.foldl_cons,
      List.foldl_nil, Nat.ofDigits_cons, List.length_cons]
    ring

theorem decFold_map (a : ℕ) (L : List ℕ) (h : ∀ d ∈ L, d < 10) :
    List.foldl (fun acc c => acc * 10 + charDigitVal c) a (L.map digitChar) =
      List.foldl (fun acc d => acc * 10 + d) a L := by
  induction L generalizing a with
  | nil => rfl
  | cons d T ih =>
    have hd : d < 10 := h d (List.mem_cons_self d T)
    have hT : ∀ x ∈ T, x < 10 := fun x hx => h x (List.mem_cons_of_mem d hx)
    simp only [List.map_cons, List.foldl_cons, (digitChar_spec d hd).2.1, ih _ hT]

theorem natToChars_all_digits (n : ℕ) : (natToChars n).all Char.isDigit = true := by
  rw [natToChars_eq]
  by_cases h : n = 0
  · simp [h]
  · simp only [h, if_false, List.all_eq_true]
    intro c hc
    simp only [List.mem_map] at hc
    obtain ⟨d, hd, rfl⟩ := hc
    have : d < 10 := Nat.digits_lt_base (by norm_num) (List.mem_reverse.mp hd)
    exact (digitChar_spec d this).1

theorem natToChars_no_dash (n : ℕ) : '-' ∉ natToChars n := by
  rw [natToChars_eq]
  by_cases h : n = 0
  · simp [h]
  · simp only [h, if_false, List.mem_map]
    rintro ⟨d, hd, hdc⟩
    have : d < 10 := Nat.digits_lt_base (by norm_num) (List.mem_reverse.mp hd)
    exact (digitChar_spec d this).2.2.1 hdc

theorem natToChars_ne_nil (n : ℕ) : natToChars n ≠ [] := by
  rw [natToChars_eq]
  by_cases h : n = 0
  · simp [h]
  · have hne : Nat.digits 10 n ≠ [] := Nat.digits_ne_nil_iff_ne_zero.mpr h
    simp [h, hne]

theorem parseU64_natToChars (n : ℕ) (h : n < 18446744073709551616) :
    parseU64 (natToChars n) = some n := by
  by_cases h0 : n = 0
  · subst h0; rfl
  · have hdigs : ∀ d ∈ Nat.digits 10 n, d < 10 :=
      fun d hd => Nat.digits_lt_base (by norm_num) hd
    have hstrip : stripPlus (natToChars n) = natToChars n := by
      rw [natToChars_eq]
      simp only [h0, if_false]
      cases hL : (Nat.digits 10 n).reverse with
      | nil =>
        exact absurd (List.reverse_eq_nil_iff.mp hL)
          (Nat.digits_ne_nil_iff_ne_zero.mpr h0)
      | cons d ds =>
        have hd10 : d < 10 := hdigs d (List.mem_reverse.mp (hL ▸ List.mem_cons_self d ds))
        simp [stripPlus, (digitChar_spec d hd10).2.2.2]
    have hfold : (natToChars n).foldl (fun a c => a * 10 + charDigitVal c) 0 = n := by
      rw [natToChars_eq]
      simp only [h0, if_false]
      have hrev : ∀ x ∈ (Nat.digits 10 n).reverse, x < 10 :=
        fun x hx => hdigs x (List.mem_reverse.mp hx)
      rw [decFold_map 0 ((Nat.digits 10 n).reverse) hrev]
      have := foldl_base10 0 (Nat.digits 10 n)
      simpa [Nat.ofDigits_digits] using this
    unfold parseU64
    simp only [hstrip, natToChars_all_digits, hfold]
    simp [natToChars_ne_nil n, h]

/-! ### RgbColor (modelled: `colors.rs` is not among the sources) -/

/-- Modelled from the spec: `RgbColor` (§3) — three 8-bit channels. -/
structure RgbColor where
  r : Fin 256
  g : Fin 256
  b : Fin 256
  deriving DecidableEq, Repr

def hexPair (hi lo : Char) : Option (Fin 256) :=
  match fromHexDigit hi, fromHexDigit lo with
  | some a, some b => some ⟨a.val * 16 + b.val, by have := a.isLt; have := b.isLt; omega⟩
  | _, _ => none

/-- Drop a single leading `'#'`. -/
def stripHash (l : List Char) : List Char :=
  match l with
  | [] => []
  | c :: r => if c = '#' then r else c :: r

/-- Modelled from the spec: `RgbColor` parsing (§3) — a 6-hex-digit string,
`#RRGGBB` or `RRGGBB`; wrong length or non-hex characters fail with an
`InvalidColor` error. -/
def RgbColor.from_hex (s : List Char) : Except (List Char) RgbColor :=
  match stripHash s with
  | [c1, c2, c3, c4, c5, c6] =>
    match hexPair c1 c2, hexPair c3 c4, hexPair c5 c6 with
    | some rv, some gv, some bv => .ok ⟨rv, gv, bv⟩
    | _, _, _ => .error "InvalidColor".toList
  | _ => .error "InvalidColor".toList

/-- The 6-hex-digit lowercase rendering of a color (no `'#'`). -/
def toHex6 (c : RgbColor) : List Char :=
  [hexDigitChar (c.r.val / 16), hexDigitChar (c.r.val % 16),
   hexDigitChar (c.g.val / 16), hexDigitChar (c.g.val % 16),
   hexDigitChar (c.b.val / 16), hexDigitChar (c.b.val % 16)]

theorem hexPair_digits (n : Fin 256) :
    hexPair (hexDigitChar (n.val / 16)) (hexDigitChar (n.val % 16)) = some n := by
  have h1 : n.val / 16 < 16 := by have := n.isLt; omega
  have h2 : n.val % 16 < 16 := Nat.mod_lt _ (by norm_num)
  simp only [hexPair, fromHexDigit_hexDigitChar _ h1, fromHexDigit_hexDigitChar _ h2]
  congr 1
  apply Fin.ext
  show n.val / 16 * 16 + n.val % 16 = n.val
  have := Nat.div_add_mod n.val 16
  omega

theorem toHex6_no_dash (c : RgbColor) : '-' ∉ toHex6 c := by
  have hdiv : ∀ n : Fin 256, n.val / 16 < 16 := fun n => by have := n.isLt; omega
  have hmod : ∀ n : Fin 256, n.val % 16 < 16 := fun n => Nat.mod_lt _ (by norm_num)
  intro hmem
  simp only [toHex6, List.mem_cons, List.not_mem_nil, or_false] at hmem
  rcases hmem with h | h | h | h | h | h <;>
    exact absurd h.symm
      (hexDigitChar_spec _ (by first | exact hdiv _ | exact hmod _)).1

theorem toHex6_length (c : RgbColor) : (toHex6 c).length = 6 := by
  simp [toHex6]

theorem from_hex_toHex6 (c : RgbColor) : RgbColor.from_hex (toHex6 c) = .ok c := by
  obtain ⟨r, g, b⟩ := c
  have h1 : r.val / 16 < 16 := by have := r.isLt; omega
  simp only [RgbColor.from_hex, toHex6, stripHash, (hexDigitChar_spec _ h1).2, if_false,
    hexPair_digits]

/-! ### Image statistics and recolor options -/

/-- Modelled from the spec: `BrightnessStats` (§3) — a scalar `average`
in `[0,1]`.  The source reads it as `info.brightness.average`; the value
is embedded as a rational (only compared, never computed with, in the
code under verification). -/
structure Brightness where
  average : ℚ
  deriving DecidableEq, Repr

/-- `ImageInformation` from `colors.rs` (absent from the sources); the
fields `main.rs` consumes. -/
structure ImageInformation where
  brightness : Brightness
  deriving DecidableEq, Repr

/-- `NordOptions` from `colors.rs` (absent from the sources); the spec's
`RecolorOptions` (§3).  `main.rs` reads exactly the fields `start`
(the spec's `apply`), `auto_adjust` and `background_color`. -/
structure NordOptions where
  start : Bool
  auto_adjust : Bool
  background_color : Option RgbColor
  deriving DecidableEq, Repr

/-- Modelled from the spec: default options (`NordOptions::new()`),
encoded into the initial "darken" control (§4.5 Announced). -/
def NordOptions.new : NordOptions :=
  { start := false, auto_adjust := false, background_color := none }

/-- The reserved "ask the user via modal" sentinel `#000001` (§4.3). -/
def nordSentinel : RgbColor := ⟨0, 0, 1⟩

theorem from_hex_sentinel : RgbColor.from_hex "000001".toList = .ok nordSentinel := by
  rfl

def boolChars (b : Bool) : List Char :=
  if b then "true".toList else "false".toList

def bgChars : Option RgbColor → List Char
  | none => "none".toList
  | some c => toHex6 c

/-- Rust `str::parse::<bool>()`: exactly `"true"` or `"false"`. -/
def parseBool (l : List Char) : Option Bool :=
  if l = "true".toList then some true
  else if l = "false".toList then some false
  else none

/-- Decoder for the background field: `"none"`, or a 6-hex-digit color;
anything else is unrecognized. -/
def parseBgField (l : List Char) : Option (Option RgbColor) :=
  if l = "none".toList then some none
  else
    match RgbColor.from_hex l with
    | .ok c => some (some c)
    | .error _ => none

/-- Modelled from the spec: `OptionCodec.encode` (§4.3), the source's
`NordOptions::make_nord_custom_id`.  Token grammar (§6):
`action "-" apply-flag ["-" option-fields...] "-" subject-id` with the
subject id always last.  The `start` argument fills the apply-flag slot
(the call in `main.rs` passes it alongside the options). -/
def NordOptions.make_nord_custom_id (o : NordOptions) (message_id : ℕ) (start : Bool) :
    List Char :=
  "darken".toList ++ '-' ::
    (boolChars start ++ '-' ::
      (boolChars o.auto_adjust ++ '-' ::
        (bgChars o.background_color ++ '-' :: natToChars message_id)))

/-- Modelled from the spec: `OptionCodec.decode`'s option part (§4.3/§6),
the source's `NordOptions::from_custom_id`.  Fields are read by position
after splitting on `'-'`; unknown or garbled option fields degrade to the
defaults rather than aborting the decode. -/
def NordOptions.from_custom_id (content : List Char) : NordOptions :=
  let parts := splitOnChar '-' content
  { start := ((parts[1]?).bind parseBool).getD NordOptions.new.start,
    auto_adjust := ((parts[2]?).bind parseBool).getD NordOptions.new.auto_adjust,
    background_color :=
      ((parts[3]?).bind parseBgField).getD NordOptions.new.background_color }

/-- Modelled from the spec: `NordOptions::from_image_information`
(§4.4 step 2) — options recomputed from freshly measured statistics.
The spec fixes no formula, only that the recomputed background is a real
color or unset, never the ask-sentinel; no claim below depends on more. -/
def NordOptions.from_image_information (_info : ImageInformation) : NordOptions :=
  { start := false, auto_adjust := true, background_color := none }

/-- Modelled from the spec: the control row (`build_componets` in the
source), a pure layout function.  Each control carries its token; the
"darken" control re-encodes the current options. -/
def NordOptions.build_componets (o : NordOptions) (message_id : ℕ) (_enabled : Bool) :
    List (List Char) :=
  [o.make_nord_custom_id message_id o.start,
   "delete".toList ++ '-' :: natToChars message_id,
   "stop".toList ++ '-' :: natToChars message_id]

/-- The trailing segment after the last `'-'` — how every consumer in
`main.rs` recovers the subject message id
(`content.split("-").last().unwrap().parse::<u64>()`). -/
def tokenMessageId (content : List Char) : Option ℕ :=
  parseU64 ((splitOnChar '-' content).getLastD [])

/-! ### Attachments and validation (`image_check`, main.rs:444) -/

/-- The attachment fields `main.rs` consumes: `size` (bytes, `u32` in
serenity) and `content_type`. -/
structure Attachment where
  size : ℕ
  content_type : Option (List Char)
  url : List Char
  deriving DecidableEq, Repr

/-- `image_check` (main.rs:444-457).  The source computes
`size as f64 / 1024.0 / 1024.0 > 16.0`; for `u32` sizes both the `f64`
conversion and the division by `2^20` are exact, so the comparison is
exactly `size > 16 * 1024 * 1024`, which is how it is embedded here. -/
def image_check (attachment : Attachment) : Except (List Char) Unit :=
  if 16 * 1024 * 1024 < attachment.size then
    .error "File too large".toList
  else
    match attachment.content_type with
    | none => .error "No content type found for attachment".toList
    | some content_type =>
      if ("image/".toList).isPrefixOf content_type then .ok ()
      else .error "Attachment is not an image".toList

/-! ### Effects and outcomes -/

/-- Externally visible actions a handler performs, in order. -/
inductive Effect where
  | createResponse (content : List Char)
  | openModal
  | ack
  | editResponse (content : List Char) (components : List (List Char))
      (newAttachment : Bool)
  | fetchImage
  | cacheInsert
  | applyNord (options : NordOptions)
  | sendMessage (buttons : List (List Char))
  | deleteMessage (message_id : ℕ)
  | followup (content : List Char)
  | deleteResponse
  deriving DecidableEq, Repr

/-- How a handler invocation ends: a returned `Ok`, a returned `Err`
(Rust `Result::Err` handed to the caller), or a panic (an
`unwrap`/`expect`/`panic!` firing inside the handler). -/
inductive Outcome where
  | ok
  | err (e : List Char)
  | panicked (msg : List Char)
  deriving DecidableEq, Repr

/-- `fetch_image_and_info` (main.rs:460-475): validation first (`?`), then
cache lookup / download.  The acquisition itself is an oracle: `fetchOk`
says whether the cache-or-download path produced `(image, info)`. -/
def fetch_image_and_info (attachment : Attachment) (fetchOk : Bool) (image : ℕ)
    (info : ImageInformation) :
    List Effect × Except (List Char) (ℕ × ImageInformation) :=
  match image_check attachment with
  | .error e => ([], .error e)
  | .ok _ =>
    if fetchOk then ([Effect.fetchImage], .ok (image, info))
    else ([Effect.fetchImage], .error "Request failed".toList)

/-! ### The palette transform and WebP encoding (invocation-level model) -/

/-- Modelled from the spec: `colors::apply_nord` (§4.4) — a pure,
deterministic function of `(image, options, stats)`.  The pixel-level
palette math lives in `colors.rs`, absent from the sources; no claim
below depends on it, only on when the transform is invoked, so the image
value is carried through unchanged. -/
def apply_nord (image : ℕ) (_options : NordOptions) (_info : ImageInformation) : ℕ :=
  image

/-- WebP container serialization (`image.write_to(..., WebP)`), modelled
as a pure re-encoding of the pixel buffer. -/
def encodeWebP (image : ℕ) : ℕ := image

/-! ### Handler inputs (oracle record) -/

/-- The three ways the background-color modal round can end for the
handler: a transport error from `quick_modal` (propagated as `Err` by
`modal_get_color`'s `?`), a timeout (`quick_modal` returns `Ok(None)`,
on which `response.unwrap()` panics, main.rs:126), or a submitted text. -/
inductive ModalOutcome where
  | transportErr
  | timeout
  | submitted (s : List Char)
  deriving DecidableEq, Repr

/-- Everything `handle_interaction_darkening` consumes: the pressed
control's `custom_id` plus the oracle for its awaited collaborators —
whether the subject message still exists (and its attachments), what the
modal round yields, and whether the image acquisition succeeds. -/
structure DarkenInput where
  custom_id : List Char
  modal : ModalOutcome
  messageExists : Bool
  messageAttachments : List Attachment
  fetchOk : Bool
  image : ℕ
  info : ImageInformation
  deriving DecidableEq, Repr

/-- Intermediate result of a handler stage: continue with a value, or
stop with an outcome.  Effects accumulate left to right. -/
inductive StageRes (α : Type) where
  | halt (effs : List Effect) (out : Outcome)
  | cont (effs : List Effect) (val : α)

def vanishedMsg : List Char :=
  "Seems like the bright picture has vanished. I can't darken what I can't see.".toList

def invalidColorMsg : List Char := "Invalid color code".toList

def workingMsg : List Char := "⌛ I'm working on it. Please wait a moment.".toList

def changeMsg : List Char := "⌛ I change the options. Please wait a moment.".toList

def editedMsg : List Char := "Edited your options.".toList

def hereMsg : List Char := "Here it is! May I delete your shiny one?".toList

def notBrightMsg : List Char := "Not bright enough".toList

def noAttachmentMsg : List Char := "No attachment found in message".toList

/-- main.rs:192-205: if the decoded background is the `#000001` sentinel,
run `modal_get_color` (main.rs:121-144).  A transport error or an invalid
color submission makes the handler return `Ok(())` (the error response for
an invalid color was already created inside `modal_get_color`); a timeout
panics on `response.unwrap()`; a valid submission replaces the sentinel
with the parsed literal color. -/
def darkenModalStep (modal : ModalOutcome) (o : NordOptions) : StageRes NordOptions :=
  if o.background_color = some nordSentinel then
    match modal with
    | .transportErr => .halt [Effect.openModal] .ok
    | .timeout => .halt [Effect.openModal] (.panicked "quick_modal response unwrap".toList)
    | .submitted s =>
      match RgbColor.from_hex s with
      | .error _ =>
        .halt [Effect.openModal, Effect.createResponse invalidColorMsg] .ok
      | .ok color => .cont [Effect.openModal] { o with background_color := some color }
  else .cont [] o

/-- main.rs:208-215: if `auto_adjust` is set, fetch the subject message
(`fetch_or_raise_message` creates the "vanished" response and then panics
on `message.unwrap()` if the fetch failed, main.rs:105-119), take its
first attachment (`first().unwrap()` panics on an empty list), fetch the
image (`fetch_image` unwraps `image_check` and the download), and rebuild
the options from the fresh statistics, keeping only `start`. -/
def darkenAdjustStep (inp : DarkenInput) (o : NordOptions) : StageRes NordOptions :=
  if o.auto_adjust then
    if inp.messageExists then
      match inp.messageAttachments with
      | [] => .halt [] (.panicked "attachments first unwrap".toList)
      | attachment :: _ =>
        match image_check attachment with
        | .error e => .halt [] (.panicked e)
        | .ok _ =>
          if inp.fetchOk then
            .cont [Effect.fetchImage]
              { NordOptions.from_image_information inp.info with start := o.start }
          else .halt [Effect.fetchImage] (.panicked "download unwrap".toList)
    else .halt [Effect.createResponse vanishedMsg] (.panicked "message unwrap".toList)
  else .cont [] o

/-- `process_attachments` (main.rs:282-298): iterate the message's
attachments, but return from inside the first iteration — so only the
first attachment is ever processed; an empty list falls through to
`panic!("No attachment found in message")`.  `process_image` fetches the
image (unwrapping validation and download) and applies the transform. -/
def process_attachments (attachments : List Attachment) (fetchOk : Bool) (image : ℕ)
    (info : ImageInformation) (options : NordOptions) : List Effect × Outcome × Option ℕ :=
  match attachments with
  | [] => ([], .panicked noAttachmentMsg, none)
  | attachment :: _ =>
    match image_check attachment with
    | .error e => ([], .panicked e, none)
    | .ok _ =>
      if fetchOk then
        ([Effect.fetchImage, Effect.applyNord options], .ok,
          some (encodeWebP (apply_nord image options info)))
      else ([Effect.fetchImage], .panicked "download unwrap".toList, none)

/-- main.rs:217-279 after the option steps: build the refreshed control
row, acknowledge, post the status edit, and either stop (still
configuring, `start = false`) or fetch-if-needed, run the transform and
deliver the new attachment (`start = true`).  `messageFetched` records
whether the auto-adjust step already fetched the subject message. -/
def darkenFinishStep (inp : DarkenInput) (message_id : ℕ) (o2 : NordOptions)
    (messageFetched : Bool) : List Effect × Outcome :=
  let comps := o2.build_componets message_id true
  if o2.start then
    if messageFetched = false ∧ inp.messageExists = false then
      ([Effect.createResponse vanishedMsg], .panicked "message unwrap".toList)
    else
      let pre := [Effect.ack, Effect.editResponse workingMsg comps false]
      match process_attachments inp.messageAttachments inp.fetchOk inp.image inp.info o2 with
      | (effs, .ok, _) =>
        (pre ++ effs ++ [Effect.editResponse hereMsg comps true], .ok)
      | (effs, out, _) => (pre ++ effs, out)
  else
    ([Effect.ack, Effect.editResponse changeMsg comps false,
      Effect.editResponse editedMsg comps false], .ok)

/-- `handle_interaction_darkening` (main.rs:184-280).  Returns the
effect trace, the outcome, and — for proving claims about the option
record in force at main.rs:217-219 — the options after the modal and
auto-adjust steps (`none` if the handler exited before that point). -/
def handle_interaction_darkening (inp : DarkenInput) :
    List Effect × Outcome × Option NordOptions :=
  let content := inp.custom_id
  let options0 := NordOptions.from_custom_id content
  match tokenMessageId content with
  | none => ([], .err "DecodeError".toList, none)
  | some message_id =>
    match (splitOnChar '-' content)[1]? with
    | none => ([], .panicked "nth(1) unwrap".toList, none)
    | some _ =>
      match darkenModalStep inp.modal options0 with
      | .halt effs out => (effs, out, none)
      | .cont effs1 o1 =>
        match darkenAdjustStep inp o1 with
        | .halt effs2 out => (effs1 ++ effs2, out, none)
        | .cont effs2 o2 =>
          let fin := darkenFinishStep inp message_id o2 o1.auto_adjust
          (effs1 ++ effs2 ++ fin.1, fin.2, some o2)

def darkenTrace (inp : DarkenInput) : List Effect :=
  (handle_interaction_darkening inp).1

def darkenOutcome (inp : DarkenInput) : Outcome :=
  (handle_interaction_darkening inp).2.1

def darkenOptionsUsed (inp : DarkenInput) : Option NordOptions :=
  (handle_interaction_darkening inp).2.2

/-- `handle_dispose` (main.rs:311-322): clear components, delete the
subject message, post an ephemeral confirmation. -/
def handle_dispose (message_id : ℕ) : List Effect × Outcome :=
  ([Effect.ack, Effect.editResponse [] [] false, Effect.deleteMessage message_id,
    Effect.followup "I have thrown it deep into the void to never see it again. Enjoy the darkness!".toList],
   .ok)

/-- `interaction_create` (main.rs:83-103).  Every branch `.unwrap()`s its
handler call: an `Err` from `handle_interaction_darkening` panics here,
and the `delete-` branch parses the trailing segment with
`.parse::<u64>().unwrap()`, panicking on a malformed id. -/
def interaction_create (inp : DarkenInput) : List Effect × Outcome :=
  let content := inp.custom_id
  if ("darken-".toList).isPrefixOf content then
    match handle_interaction_darkening inp with
    | (effs, .err e, _) => (effs, .panicked ("called unwrap on Err: ".toList ++ e))
    | (effs, out, _) => (effs, out)
  else if ("delete-".toList).isPrefixOf content then
    match tokenMessageId content with
    | none => ([], .panicked "called unwrap on Err: invalid digit".toList)
    | some message_id => handle_dispose message_id
  else if ("clear-".toList).isPrefixOf content then
    ([Effect.ack, Effect.editResponse [] [] false], .ok)
  else if ("stop-".toList).isPrefixOf content then
    ([Effect.createResponse [], Effect.deleteResponse], .ok)
  else ([], .ok)

/-! ### The announce flow (`ask_user_to_darken_image`, main.rs:478-528) -/

/-- Inputs of `ask_user_to_darken_image`: the attachment, the subject
message id, the configured brightness threshold
(`data.config.threshold.brightness`), and the acquisition oracle. -/
structure AskInput where
  att : Attachment
  message_id : ℕ
  fetchOk : Bool
  image : ℕ
  info : ImageInformation
  threshold : ℚ
  deriving DecidableEq, Repr

/-- `ask_user_to_darken_image` (main.rs:478-528): validate (`?`), fetch
image and statistics (`.expect` — a failed acquisition panics), insert
into the cache, then `panic!("Not bright enough: {bright}")` when the
average brightness is below the threshold; otherwise send the offer
message carrying the "darken" control (default options, apply-flag
`false`) and the "stop" control. -/
def ask_user_to_darken_image (inp : AskInput) : List Effect × Outcome :=
  match image_check inp.att with
  | .error e => ([], .err e)
  | .ok _ =>
    if inp.fetchOk then
      let effs := [Effect.fetchImage, Effect.cacheInsert]
      if inp.info.brightness.average < inp.threshold then
        (effs, .panicked notBrightMsg)
      else
        (effs ++ [Effect.sendMessage
          [NordOptions.new.make_nord_custom_id inp.message_id false,
           "stop".toList ++ '-' :: natToChars inp.message_id]], .ok)
    else ([Effect.fetchImage], .panicked "Image or info is none in ask_user_to_darken_image".toList)

/-! ### ImageCache (main.rs:37-59 over the `lru_time_cache` crate) -/

/-- Modelled from the spec: the `lru_time_cache::LruCache` backing
`ImageCache` (§4.2) — capacity-bounded with an absolute per-entry TTL.
Entries are `(key, (image, info), insert-time)`, ordered by recency
(head = most recently used).  Time is an explicit natural-number
parameter of each operation. -/
structure ImageCache where
  capacity : ℕ
  ttl : ℕ
  entries : List (List Char × (ℕ × ImageInformation) × ℕ)
  deriving DecidableEq, Repr

/-- `ImageCache::new(capacity, ttl)` (main.rs:42-46). -/
def ImageCache.new (capacity : ℕ) (ttl : ℕ) : ImageCache :=
  { capacity := capacity, ttl := ttl, entries := [] }

/-- Modelled from the spec: `insert` (main.rs:48-51) — replace any entry
with the same key, put the new entry at the most-recent position, and
drop from the least-recently-used end when over capacity. -/
def ImageCache.insert (c : ImageCache) (key : List Char) (value : ℕ × ImageInformation)
    (now : ℕ) : ImageCache :=
  { c with entries :=
      ((key, value, now) :: c.entries.filter (fun e => e.1 ≠ key)).take c.capacity }

/-- Modelled from the spec: `get` (main.rs:53-58) — a lookup past the TTL
is a miss and evicts the entry; a hit returns a clone of the entry and
touches its recency. -/
def ImageCache.get (c : ImageCache) (key : List Char) (now : ℕ) :
    Option (ℕ × ImageInformation) × ImageCache :=
  match c.entries.find? (fun e => e.1 = key) with
  | none => (none, c)
  | some e =>
    if e.2.2 + c.ttl ≤ now then
      (none, { c with entries := c.entries.filter (fun x => x.1 ≠ key) })
    else
      (some e.2.1,
       { c with entries := e :: c.entries.filter (fun x => x.1 ≠ key) })

def ImageCache.keys (c : ImageCache) : List (List Char) :=
  c.entries.map (fun e => e.1)

theorem ImageCache.insert_keys_fresh (c : ImageCache) (key : List Char)
    (value : ℕ × ImageInformation) (now : ℕ) (h : key ∉ c.keys) :
    (c.insert key value now).keys = (key :: c.keys).take c.capacity := by
  have hfil : c.entries.filter (fun e => e.1 ≠ key) = c.entries := by
    apply List.filter_eq_self.mpr
    intro e he
    simp only [ne_eq, decide_not, Bool.not_eq_true', decide_eq_false_iff_not]
    intro hek
    exact h (hek ▸ List.mem_map_of_mem (fun x => x.1) he)
  simp only [ImageCache.insert, ImageCache.keys, List.map_take]
  rw [hfil]
  simp

theorem ImageCache.insert_capacity (c : ImageCache) (key : List Char)
    (value : ℕ × ImageInformation) (now : ℕ) :
    (c.insert key value now).capacity = c.capacity := rfl

theorem ImageCache.foldl_insert_capacity (cap ttl now : ℕ) (v : ℕ × ImageInformation)
    (ks : List (List Char)) :
    (ks.foldl (fun c k => c.insert k v now) (ImageCache.new cap ttl)).capacity = cap := by
  induction ks using List.reverseRecOn with
  | nil => rfl
  | append_singleton ks k ih =>
    rw [List.foldl_append]
    simpa using ih

/-- Folding distinct fresh keys into a cache leaves, as keys, the reversed
insertion order truncated to capacity — so the survivors are the most
recent `capacity` insertions and the evicted ones are exactly the
least-recently-used. -/
theorem ImageCache.foldl_insert_keys (cap ttl now : ℕ) (v : ℕ × ImageInformation) :
    ∀ ks : List (List Char), ks.Nodup →
      (ks.foldl (fun c k => c.insert k v now) (ImageCache.new cap ttl)).keys =
        ks.reverse.take cap := by
  intro ks
  induction ks using List.reverseRecOn with
  | nil => intro _; simp [ImageCache.new, ImageCache.keys]
  | append_singleton ks k ih =>
    intro hnd
    have hnd' : ks.Nodup := (List.nodup_append.mp hnd).1
    have hkfresh : k ∉ ks := by
      intro hk
      exact (List.nodup_append.mp hnd).2.2 hk (List.mem_singleton_self k)
    rw [List.foldl_append]
    simp only [List.foldl_cons, List.foldl_nil]
    have hkeys := ih hnd'
    have hfresh : k ∉ (ks.foldl (fun c k => c.insert k v now)
        (ImageCache.new cap ttl)).keys := by
      rw [hkeys]
      intro hmem
      exact hkfresh (List.mem_reverse.mp (List.take_subset _ _ hmem))
    rw [ImageCache.insert_keys_fresh _ _ _ _ hfresh, hkeys,
      ImageCache.foldl_insert_capacity]
    have hra : (ks ++ [k]).reverse = k :: ks.reverse := by simp
    rw [hra]
    cases cap with
    | zero => simp
    | succ m =>
      have hmin : min m (m + 1) = m := min_eq_left (by omega)
      rw [List.take_succ_cons, List.take_succ_cons, List.take_take, hmin]

/-! ### Token structure lemmas -/

theorem boolChars_no_dash (b : Bool) : '-' ∉ boolChars b := by
  cases b <;> decide

theorem bgChars_no_dash (bg : Option RgbColor) : '-' ∉ bgChars bg := by
  cases bg with
  | none => decide
  | some c => simpa [bgChars] using toHex6_no_dash c

theorem parseBool_boolChars (b : Bool) : parseBool (boolChars b) = some b := by
  cases b <;> rfl

theorem parseBgField_bgChars (bg : Option RgbColor) : parseBgField (bgChars bg) = some bg := by
  cases bg with
  | none => rfl
  | some c =>
    have hne : toHex6 c ≠ "none".toList := by
      intro hcontra
      have h6 := toHex6_length c
      rw [hcontra] at h6
      simp at h6
    simp only [parseBgField, bgChars, hne, if_false, from_hex_toHex6]

theorem make_custom_id_split (o : NordOptions) (message_id : ℕ) (appl : Bool) :
    splitOnChar '-' (o.make_nord_custom_id message_id appl) =
      ["darken".toList, boolChars appl, boolChars o.auto_adjust,
       bgChars o.background_color, natToChars message_id] := by
  have hA : '-' ∉ "darken".toList := by decide
  unfold NordOptions.make_nord_custom_id
  rw [splitOnChar_append_sep '-' _ _ hA,
    splitOnChar_append_sep '-' _ _ (boolChars_no_dash appl),
    splitOnChar_append_sep '-' _ _ (boolChars_no_dash o.auto_adjust),
    splitOnChar_append_sep '-' _ _ (bgChars_no_dash o.background_color),
    splitOnChar_no_sep '-' _ (natToChars_no_dash message_id)]

/-- Claim C8: for every `RecolorOptions` value expressible by the token
grammar, every subject id and every apply flag, decoding the token
produced by encoding them recovers exactly the encoded option record and
the subject id.  The encoder's `apply` argument fills the token's
apply-flag slot, so the record the token carries is `{o with start :=
appl}`; decoding returns precisely that record and the id, and with
`appl = o.start` (third conjunct) the round trip is the identity
`decode (encode o id) = (o, id)` verbatim. -/
theorem c8_encode_decode_roundtrip (o : NordOptions) (message_id : ℕ) (appl : Bool)
    (h : message_id < 18446744073709551616) :
    NordOptions.from_custom_id (o.make_nord_custom_id message_id appl) =
      { o with start := appl } ∧
    tokenMessageId (o.make_nord_custom_id message_id appl) = some message_id ∧
    NordOptions.from_custom_id (o.make_nord_custom_id message_id o.start) = o := by
  have hdec : ∀ b : Bool,
      NordOptions.from_custom_id (o.make_nord_custom_id message_id b) =
        { o with start := b } := by
    intro b
    unfold NordOptions.from_custom_id
    rw [make_custom_id_split]
    simp [parseBool_boolChars, parseBgField_bgChars]
  refine ⟨hdec appl, ?_, hdec o.start⟩
  unfold tokenMessageId
  rw [make_custom_id_split]
  simpa using parseU64_natToChars message_id h

/-- Claim C8 witness: a concrete round trip. -/
theorem c8_encode_decode_roundtrip_witness :
    NordOptions.from_custom_id
        ((NordOptions.mk true false (some ⟨255, 128, 7⟩)).make_nord_custom_id 99 false) =
      NordOptions.mk false false (some ⟨255, 128, 7⟩) ∧
    tokenMessageId
        ((NordOptions.mk true false (some ⟨255, 128, 7⟩)).make_nord_custom_id 99 false) =
      some 99 :=
  ⟨(c8_encode_decode_roundtrip (NordOptions.mk true false (some ⟨255, 128, 7⟩)) 99 false
      (by norm_num)).1,
   (c8_encode_decode_roundtrip (NordOptions.mk true false (some ⟨255, 128, 7⟩)) 99 false
      (by norm_num)).2.1⟩

/-! ### Claim C1 — token decoding can panic the handlers (code bug) -/

/-- Claim C1 (refuted — the code panics where the spec requires a
degradation to a `DecodeError` response): at the concrete malformed
tokens `"delete-abc"` and `"darken-true-false-none-xyz"` the dispatcher
`interaction_create` (main.rs:89-91 `parse::<u64>().unwrap()`, and
main.rs:87 `.unwrap()` on the darken handler's `Err`) ends in a panic,
not a user-visible error response. -/
theorem c1_malformed_token_panics :
    (interaction_create
        { custom_id := "delete-abc".toList, modal := ModalOutcome.transportErr,
          messageExists := true, messageAttachments := [], fetchOk := true,
          image := 0, info := ⟨⟨0⟩⟩ }).2 =
      Outcome.panicked "called unwrap on Err: invalid digit".toList ∧
    (interaction_create
        { custom_id := "darken-true-false-none-xyz".toList, modal := ModalOutcome.transportErr,
          messageExists := true, messageAttachments := [], fetchOk := true,
          image := 0, info := ⟨⟨0⟩⟩ }).2 =
      Outcome.panicked "called unwrap on Err: DecodeError".toList := by
  constructor <;> rfl

/-! ### Claim C2 — below-threshold attachments (corrected) -/

/-- Claim C2 counterexample: at a concrete attachment whose measured
average brightness (0) is below the threshold (1), the handler does not
return a result to its caller — it hits `panic!("Not bright enough")`
(main.rs:495), refuting the claim's "never fatal, always returns" part:
the outcome is a panic, not `Outcome.ok` or `Outcome.err`. -/
theorem c2_below_threshold_counterexample :
    ask_user_to_darken_image
        { att := ⟨1000, some "image/png".toList, "u".toList⟩, message_id := 5,
          fetchOk := true, image := 7, info := ⟨⟨0⟩⟩, threshold := 1 } =
      ([Effect.fetchImage, Effect.cacheInsert], Outcome.panicked notBrightMsg) := by
  rfl

/-- Claim C2 (amended): for every attachment whose measured average
brightness is below the threshold, the flow posts no darken offer (no
`sendMessage` effect, so the Announced state is not entered) — but the
handler terminates by panicking with "Not bright enough" rather than
returning a result to its caller. -/
theorem c2_below_threshold_no_offer (inp : AskInput)
    (hok : image_check inp.att = Except.ok ())
    (hfetch : inp.fetchOk = true)
    (hdim : inp.info.brightness.average < inp.threshold) :
    ask_user_to_darken_image inp =
      ([Effect.fetchImage, Effect.cacheInsert], Outcome.panicked notBrightMsg) := by
  unfold ask_user_to_darken_image
  rw [hok, hfetch]
  simp [hdim]

/-- Claim C2 witness. -/
theorem c2_below_threshold_no_offer_witness :
    ask_user_to_darken_image
        { att := ⟨2000, some "image/webp".toList, "v".toList⟩, message_id := 6,
          fetchOk := true, image := 9, info := ⟨⟨0⟩⟩, threshold := 2 } =
      ([Effect.fetchImage, Effect.cacheInsert], Outcome.panicked notBrightMsg) :=
  c2_below_threshold_no_offer
    { att := ⟨2000, some "image/webp".toList, "v".toList⟩, message_id := 6,
      fetchOk := true, image := 9, info := ⟨⟨0⟩⟩, threshold := 2 }
    rfl rfl (by decide)

/-! ### Claim C6 — attachment validation -/

theorem image_check_ok_iff (a : Attachment) :
    image_check a = Except.ok () ↔
      (¬ 16 * 1024 * 1024 < a.size ∧
        ∃ ct, a.content_type = some ct ∧ "image/".toList <+: ct) := by
  unfold image_check
  split
  next hs => simp [hs]
  next hs =>
    split
    next hct => simp [hct]
    next ct hct =>
      split
      next hp => simp at hp; simp [hct, hp, hs]
      next hp => simp at hp; simp [hct, hp, hs]

/-- Claim C6: `image_check` rejects an attachment exactly when its size
exceeds 16 MiB, or its content type is absent, or its content type does
not begin with `"image/"`; and on rejection `fetch_image_and_info`
performs no fetch (empty effect list) and returns the same error. -/
theorem c6_image_check_iff (a : Attachment) (f : Bool) (img : ℕ)
    (info : ImageInformation) :
    ((∃ e, image_check a = Except.error e) ↔
      (16 * 1024 * 1024 < a.size ∨ a.content_type = none ∨
        ∃ ct, a.content_type = some ct ∧ ¬ "image/".toList <+: ct)) ∧
    (∀ e, image_check a = Except.error e →
      fetch_image_and_info a f img info = ([], Except.error e)) := by
  refine ⟨⟨?_, ?_⟩, ?_⟩
  · rintro ⟨e, he⟩
    by_cases hs : 16 * 1024 * 1024 < a.size
    · exact Or.inl hs
    · cases hct : a.content_type with
      | none => exact Or.inr (Or.inl rfl)
      | some ct =>
        by_cases hp : "image/".toList <+: ct
        · exfalso
          have hok : image_check a = Except.ok () :=
            (image_check_ok_iff a).mpr ⟨hs, ct, hct, hp⟩
          rw [hok] at he
          exact absurd he (by simp)
        · exact Or.inr (Or.inr ⟨ct, rfl, hp⟩)
  · intro hcond
    cases hval : image_check a with
    | error e => exact ⟨e, rfl⟩
    | ok u =>
      exfalso
      have hu : u = () := rfl
      subst hu
      obtain ⟨h1, ct, hct, hp⟩ := (image_check_ok_iff a).mp hval
      rcases hcond with h | h | ⟨ct2, hct2, hp2⟩
      · exact h1 h
      · rw [hct] at h; exact absurd h (by simp)
      · rw [hct] at hct2
        injection hct2 with hcc
        subst hcc
        exact hp2 hp
  · intro e he
    unfold fetch_image_and_info
    rw [he]

/-- Claim C6 witness: a 20 MiB `image/png` attachment is rejected, and no
fetch occurs. -/
theorem c6_image_check_iff_witness :
    (∃ e, image_check ⟨20971520, some "image/png".toList, "u".toList⟩ = Except.error e) ∧
    fetch_image_and_info ⟨20971520, some "image/png".toList, "u".toList⟩ true 0 ⟨⟨0⟩⟩ =
      ([], Except.error "File too large".toList) :=
  ⟨(c6_image_check_iff ⟨20971520, some "image/png".toList, "u".toList⟩ true 0 ⟨⟨0⟩⟩).1.mpr
      (Or.inl (by decide)),
   (c6_image_check_iff ⟨20971520, some "image/png".toList, "u".toList⟩ true 0 ⟨⟨0⟩⟩).2
      "File too large".toList rfl⟩

/-! ### Claim C10 — process_attachments -/

/-- Claim C10: `process_attachments` processes and returns only the first
attachment of the message — for any non-empty list the result coincides
with running it on the first attachment alone — and on an empty
attachment list it does not return a `Result` but panics with
"No attachment found in message" (main.rs:297). -/
theorem c10_process_attachments_first_only (fetchOk : Bool) (image : ℕ)
    (info : ImageInformation) (options : NordOptions) :
    process_attachments [] fetchOk image info options =
      ([], Outcome.panicked noAttachmentMsg, none) ∧
    ∀ (a : Attachment) (rest : List Attachment),
      process_attachments (a :: rest) fetchOk image info options =
        process_attachments [a] fetchOk image info options := by
  exact ⟨rfl, fun a rest => rfl⟩

/-! ### Claim C9 — ImageCache semantics -/

theorem reverse_take_of_length_eq {α : Type} (l : List α) (n : ℕ) (h : l.length = n + 1) :
    l.reverse.take n = (l.drop 1).reverse := by
  cases l with
  | nil => simp at h
  | cons a t =>
    have ht : t.length = n := by simpa using h
    simp only [List.reverse_cons, List.drop_succ_cons, List.drop_zero]
    have hlen : t.reverse.length = n := by simpa using ht
    rw [← hlen, List.take_left]

/-- Claim C9: the `ImageCache` — (i) inserting `capacity + 1` distinct
keys into the empty cache retains, most-recent first, exactly the last
`capacity` insertions, evicting precisely the least-recently-used (the
first) key; (ii) a `get` within the TTL of an `insert` returns the
inserted value; (iii) a `get` after the TTL has elapsed returns nothing
and the entry is evicted; (iv) a `get` hit moves the entry to the
most-recent position; (v) an `insert` places its entry at the most-recent
position. -/
theorem c9_cache_semantics :
    (∀ (ks : List (List Char)) (cap ttl now : ℕ) (v : ℕ × ImageInformation),
      ks.Nodup → ks.length = cap + 1 →
      (ks.foldl (fun c k => c.insert k v now) (ImageCache.new cap ttl)).keys =
        (ks.drop 1).reverse) ∧
    (∀ (c : ImageCache) (k : List Char) (v : ℕ × ImageInformation) (t now : ℕ),
      0 < c.capacity → now < t + c.ttl →
        ((c.insert k v t).get k now).1 = some v) ∧
    (∀ (c : ImageCache) (k : List Char) (v : ℕ × ImageInformation) (t now : ℕ),
      t + c.ttl ≤ now →
        ((c.insert k v t).get k now).1 = none ∧
        ∀ e ∈ ((c.insert k v t).get k now).2.entries, e.1 ≠ k) ∧
    (∀ (c : ImageCache) (k : List Char) (now : ℕ) (entry : ℕ × ImageInformation),
      (c.get k now).1 = some entry →
        ∃ t, (c.get k now).2.entries.head? = some (k, entry, t)) ∧
    (∀ (c : ImageCache) (k : List Char) (v : ℕ × ImageInformation) (t : ℕ),
      0 < c.capacity → (c.insert k v t).entries.head? = some (k, v, t)) := by
  refine ⟨?_, ?_, ?_, ?_, ?_⟩
  · intro ks cap ttl now v hnd hlen
    rw [ImageCache.foldl_insert_keys cap ttl now v ks hnd]
    exact reverse_take_of_length_eq ks cap hlen
  · intro c k v t now hcap httl
    obtain ⟨m, hm⟩ : ∃ m, c.capacity = m + 1 := ⟨c.capacity - 1, by omega⟩
    simp only [ImageCache.insert, ImageCache.get, hm, List.take_succ_cons]
    rw [List.find?_cons_of_pos _ (by simp)]
    simp [Nat.not_le.mpr httl]
  · intro c k v t now httl
    cases hcap : c.capacity with
    | zero =>
      simp [ImageCache.insert, ImageCache.get, hcap]
    | succ m =>
      simp only [ImageCache.insert, ImageCache.get, hcap, List.take_succ_cons]
      rw [List.find?_cons_of_pos _ (by simp)]
      dsimp only
      rw [if_pos httl]
      refine ⟨rfl, ?_⟩
      intro e he
      have := List.of_mem_filter he
      simpa using this
  · intro c k now entry hget
    unfold ImageCache.get at hget ⊢
    cases hf : c.entries.find? (fun e => e.1 = k) with
    | none => rw [hf] at hget; simp at hget
    | some e =>
      rw [hf] at hget
      by_cases hexp : e.2.2 + c.ttl ≤ now
      · simp [hexp] at hget
      · simp only [hexp, if_false] at hget ⊢
        have hentry : e.2.1 = entry := by simpa using hget
        have hek : e.1 = k := by simpa using List.find?_some hf
        exact ⟨e.2.2, by simp [← hentry, ← hek]⟩
  · intro c k v t hcap
    obtain ⟨m, hm⟩ : ∃ m, c.capacity = m + 1 := ⟨c.capacity - 1, by omega⟩
    simp [ImageCache.insert, hm, List.take_succ_cons]

/-- Claim C9 witness: capacity 2, keys a, b, c — a (the LRU) is evicted;
a get at time 5 within TTL 600 hits; a get at time 600 misses. -/
theorem c9_cache_semantics_witness :
    ((([['a'], ['b'], ['c']] : List (List Char)).foldl
        (fun c k => c.insert k (0, ⟨⟨0⟩⟩) 0) (ImageCache.new 2 600)).keys =
      [['c'], ['b']]) ∧
    (((ImageCache.new 2 600).insert ['a'] (7, ⟨⟨0⟩⟩) 0).get ['a'] 5).1 = some (7, ⟨⟨0⟩⟩) ∧
    ((((ImageCache.new 2 600).insert ['a'] (7, ⟨⟨0⟩⟩) 0).get ['a'] 600).1 = none) :=
  ⟨by
      have h := c9_cache_semantics.1 [['a'], ['b'], ['c']] 2 600 0 (0, ⟨⟨0⟩⟩)
        (by decide) rfl
      simpa using h,
   c9_cache_semantics.2.1 (ImageCache.new 2 600) ['a'] (7, ⟨⟨0⟩⟩) 0 5
      (by decide) (by decide),
   (c9_cache_semantics.2.2.1 (ImageCache.new 2 600) ['a'] (7, ⟨⟨0⟩⟩) 0 600 (by decide)).1⟩

/-! ### Claim C7 — garbled option fields degrade to defaults -/

/-- Claim C7: for a token whose action word and trailing subject id are
well-formed but whose option fields are unrecognized, decoding degrades
every option field to its default (`NordOptions::new()`), the id still
parses, and the darken handler proceeds normally (outcome `Ok`, reaching
the main flow with the default options) instead of aborting the decode
with an error. -/
theorem c7_garbled_fields_degrade (f1 f2 f3 : List Char) (message_id : ℕ)
    (h1 : '-' ∉ f1) (h2 : '-' ∉ f2) (h3 : '-' ∉ f3)
    (hb1 : parseBool f1 = none) (hb2 : parseBool f2 = none)
    (hg3 : parseBgField f3 = none)
    (hid : message_id < 18446744073709551616) :
    NordOptions.from_custom_id
        ("darken".toList ++ '-' :: (f1 ++ '-' :: (f2 ++ '-' :: (f3 ++
          '-' :: natToChars message_id)))) = NordOptions.new ∧
    tokenMessageId
        ("darken".toList ++ '-' :: (f1 ++ '-' :: (f2 ++ '-' :: (f3 ++
          '-' :: natToChars message_id)))) = some message_id ∧
    ∀ inp : DarkenInput,
      inp.custom_id = "darken".toList ++ '-' :: (f1 ++ '-' :: (f2 ++ '-' :: (f3 ++
        '-' :: natToChars message_id))) →
      darkenOutcome inp = Outcome.ok ∧ darkenOptionsUsed inp = some NordOptions.new := by
  have hsplit : splitOnChar '-'
      ("darken".toList ++ '-' :: (f1 ++ '-' :: (f2 ++ '-' :: (f3 ++
        '-' :: natToChars message_id)))) =
      ["darken".toList, f1, f2, f3, natToChars message_id] := by
    rw [splitOnChar_append_sep '-' _ _ (by decide),
      splitOnChar_append_sep '-' _ _ h1,
      splitOnChar_append_sep '-' _ _ h2,
      splitOnChar_append_sep '-' _ _ h3,
      splitOnChar_no_sep '-' _ (natToChars_no_dash message_id)]
  have hdec : NordOptions.from_custom_id
      ("darken".toList ++ '-' :: (f1 ++ '-' :: (f2 ++ '-' :: (f3 ++
        '-' :: natToChars message_id)))) = NordOptions.new := by
    unfold NordOptions.from_custom_id
    rw [hsplit]
    simp [hb1, hb2, hg3]
  have hmid : tokenMessageId
      ("darken".toList ++ '-' :: (f1 ++ '-' :: (f2 ++ '-' :: (f3 ++
        '-' :: natToChars message_id)))) = some message_id := by
    unfold tokenMessageId
    rw [hsplit]
    simpa using parseU64_natToChars message_id hid
  refine ⟨hdec, hmid, ?_⟩
  intro inp hcid
  unfold darkenOutcome darkenOptionsUsed handle_interaction_darkening
  rw [hcid]
  dsimp only
  rw [hmid, hdec, hsplit]
  simp [darkenModalStep, darkenAdjustStep, darkenFinishStep, NordOptions.new]

/-- Claim C7 witness: concrete garbled fields `zz`, `q`, `42x`. -/
theorem c7_garbled_fields_degrade_witness :
    NordOptions.from_custom_id "darken-zz-q-42x-42".toList = NordOptions.new ∧
    tokenMessageId "darken-zz-q-42x-42".toList = some 42 :=
  ⟨((c7_garbled_fields_degrade "zz".toList "q".toList "42x".toList 42
      (by decide) (by decide) (by decide) (by decide) (by decide) (by decide)
      (by decide)).1),
   ((c7_garbled_fields_degrade "zz".toList "q".toList "42x".toList 42
      (by decide) (by decide) (by decide) (by decide) (by decide) (by decide)
      (by decide)).2.1)⟩

/-! ### Stage shape lemmas for the darken handler -/

theorem darkenModalStep_cont_shapes (m : ModalOutcome) (o : NordOptions)
    (effs : List Effect) (o' : NordOptions)
    (h : darkenModalStep m o = StageRes.cont effs o') :
    (o.background_color ≠ some nordSentinel ∧ effs = [] ∧ o' = o) ∨
    (∃ s color, o.background_color = some nordSentinel ∧
      m = ModalOutcome.submitted s ∧ RgbColor.from_hex s = Except.ok color ∧
      effs = [Effect.openModal] ∧ o' = { o with background_color := some color }) := by
  unfold darkenModalStep at h
  by_cases hbg : o.background_color = some nordSentinel
  · rw [if_pos hbg] at h
    cases m with
    | transportErr => exact absurd h (by simp)
    | timeout => exact absurd h (by simp)
    | submitted s =>
      dsimp only at h
      cases hfh : RgbColor.from_hex s with
      | error e => rw [hfh] at h; exact absurd h (by simp)
      | ok color =>
        rw [hfh] at h
        injection h with h1 h2
        exact Or.inr ⟨s, color, hbg, rfl, hfh, h1.symm, h2.symm⟩
  · rw [if_neg hbg] at h
    injection h with h1 h2
    exact Or.inl ⟨hbg, h1.symm, h2.symm⟩

theorem darkenModalStep_halt_shapes (m : ModalOutcome) (o : NordOptions)
    (effs : List Effect) (out : Outcome)
    (h : darkenModalStep m o = StageRes.halt effs out) :
    o.background_color = some nordSentinel ∧
    (effs = [Effect.openModal] ∨
      effs = [Effect.openModal, Effect.createResponse invalidColorMsg]) := by
  unfold darkenModalStep at h
  by_cases hbg : o.background_color = some nordSentinel
  · rw [if_pos hbg] at h
    refine ⟨hbg, ?_⟩
    cases m with
    | transportErr => injection h with h1 h2; exact Or.inl h1.symm
    | timeout => injection h with h1 h2; exact Or.inl h1.symm
    | submitted s =>
      dsimp only at h
      cases hfh : RgbColor.from_hex s with
      | error e => rw [hfh] at h; injection h with h1 h2; exact Or.inr h1.symm
      | ok color => rw [hfh] at h; exact absurd h (by simp)
  · rw [if_neg hbg] at h
    exact absurd h (by simp)

theorem darkenAdjustStep_cont_shapes (inp : DarkenInput) (o : NordOptions)
    (effs : List Effect) (o' : NordOptions)
    (h : darkenAdjustStep inp o = StageRes.cont effs o') :
    (o.auto_adjust = true ∧ effs = [Effect.fetchImage] ∧
      o' = { NordOptions.from_image_information inp.info with start := o.start }) ∨
    (o.auto_adjust = false ∧ effs = [] ∧ o' = o) := by
  unfold darkenAdjustStep at h
  cases hauto : o.auto_adjust with
  | false =>
    rw [hauto] at h
    simp only [Bool.false_eq_true, if_false] at h
    injection h with h1 h2
    exact Or.inr ⟨rfl, h1.symm, h2.symm⟩
  | true =>
    rw [hauto] at h
    simp only [if_true] at h
    cases hme : inp.messageExists with
    | false => rw [hme] at h; simp at h
    | true =>
      rw [hme] at h
      simp only [if_true] at h
      cases hatt : inp.messageAttachments with
      | nil => rw [hatt] at h; exact absurd h (by simp)
      | cons a rest =>
        rw [hatt] at h
        dsimp only at h
        cases hchk : image_check a with
        | error e => rw [hchk] at h; exact absurd h (by simp)
        | ok u =>
          rw [hchk] at h
          dsimp only at h
          cases hfk : inp.fetchOk with
          | false => rw [hfk] at h; simp at h
          | true =>
            rw [hfk] at h
            simp only [if_true] at h
            injection h with h1 h2
            exact Or.inl ⟨rfl, h1.symm, h2.symm⟩

theorem darkenAdjustStep_halt_shapes (inp : DarkenInput) (o : NordOptions)
    (effs : List Effect) (out : Outcome)
    (h : darkenAdjustStep inp o = StageRes.halt effs out) :
    effs = [] ∨ effs = [Effect.createResponse vanishedMsg] ∨ effs = [Effect.fetchImage] := by
  unfold darkenAdjustStep at h
  cases hauto : o.auto_adjust with
  | false =>
    rw [hauto] at h
    simp only [Bool.false_eq_true, if_false] at h
    exact absurd h (by simp)
  | true =>
    rw [hauto] at h
    simp only [if_true] at h
    cases hme : inp.messageExists with
    | false =>
      rw [hme] at h
      simp only [Bool.false_eq_true, if_false] at h
      injection h with h1 h2
      exact Or.inr (Or.inl h1.symm)
    | true =>
      rw [hme] at h
      simp only [if_true] at h
      cases hatt : inp.messageAttachments with
      | nil =>
        rw [hatt] at h
        injection h with h1 h2
        exact Or.inl h1.symm
      | cons a rest =>
        rw [hatt] at h
        dsimp only at h
        cases hchk : image_check a with
        | error e => rw [hchk] at h; injection h with h1 h2; exact Or.inl h1.symm
        | ok u =>
          rw [hchk] at h
          dsimp only at h
          cases hfk : inp.fetchOk with
          | false =>
            rw [hfk] at h
            simp only [Bool.false_eq_true, if_false] at h
            injection h with h1 h2
            exact Or.inr (Or.inr h1.symm)
          | true => rw [hfk] at h; simp at h

theorem darkenFinishStep_start_false (inp : DarkenInput) (message_id : ℕ)
    (o2 : NordOptions) (mf : Bool) (h : o2.start = false) :
    darkenFinishStep inp message_id o2 mf =
      ([Effect.ack,
        Effect.editResponse changeMsg (o2.build_componets message_id true) false,
        Effect.editResponse editedMsg (o2.build_componets message_id true) false],
       Outcome.ok) := by
  unfold darkenFinishStep
  rw [h]
  simp

theorem process_attachments_applyNord (atts : List Attachment) (fOk : Bool) (img : ℕ)
    (info : ImageInformation) (opts : NordOptions) (o : NordOptions)
    (h : Effect.applyNord o ∈ (process_attachments atts fOk img info opts).1) :
    o = opts := by
  unfold process_attachments at h
  cases atts with
  | nil => simp at h
  | cons a rest =>
    dsimp only at h
    cases hchk : image_check a with
    | error e => rw [hchk] at h; simp at h
    | ok u =>
      rw [hchk] at h
      dsimp only at h
      cases hfk : fOk with
      | false => rw [hfk] at h; simp at h
      | true =>
        rw [hfk] at h
        simp only [if_true] at h
        simp at h
        exact h

theorem darkenFinishStep_applyNord (inp : DarkenInput) (message_id : ℕ)
    (o2 : NordOptions) (mf : Bool) (o : NordOptions)
    (h : Effect.applyNord o ∈ (darkenFinishStep inp message_id o2 mf).1) :
    o = o2 := by
  unfold darkenFinishStep at h
  cases hs : o2.start with
  | false =>
    rw [hs] at h
    simp only [Bool.false_eq_true, if_false] at h
    simp at h
  | true =>
    rw [hs] at h
    simp only [if_true] at h
    by_cases hmf : mf = false ∧ inp.messageExists = false
    · rw [if_pos hmf] at h
      simp at h
    · rw [if_neg hmf] at h
      rcases hpa : process_attachments inp.messageAttachments inp.fetchOk inp.image
          inp.info o2 with ⟨effs, out, buf⟩
      rw [hpa] at h
      have heffs : Effect.applyNord o ∈ effs → o = o2 := by
        intro hmem
        have : Effect.applyNord o ∈ (process_attachments inp.messageAttachments
            inp.fetchOk inp.image inp.info o2).1 := by rw [hpa]; exact hmem
        exact process_attachments_applyNord _ _ _ _ _ _ this
      cases out with
      | ok =>
        dsimp only at h
        rcases List.mem_append.mp h with h | h
        · rcases List.mem_append.mp h with h | h
          · simp at h
          · exact heffs h
        · simp at h
      | err e =>
        dsimp only at h
        rcases List.mem_append.mp h with h | h
        · simp at h
        · exact heffs h
      | panicked msg =>
        dsimp only at h
        rcases List.mem_append.mp h with h | h
        · simp at h
        · exact heffs h

/-- One case analysis for `handle_interaction_darkening`: decode failure,
`nth(1)` failure, modal-stage halt, adjust-stage halt, or the full path
through `darkenFinishStep`. -/
theorem handle_darkening_decomp (inp : DarkenInput) :
    handle_interaction_darkening inp = ([], Outcome.err "DecodeError".toList, none) ∨
    handle_interaction_darkening inp = ([], Outcome.panicked "nth(1) unwrap".toList, none) ∨
    (∃ effs out, darkenModalStep inp.modal (NordOptions.from_custom_id inp.custom_id) =
        StageRes.halt effs out ∧ handle_interaction_darkening inp = (effs, out, none)) ∨
    (∃ effs1 o1 effs2 out,
      darkenModalStep inp.modal (NordOptions.from_custom_id inp.custom_id) =
        StageRes.cont effs1 o1 ∧
      darkenAdjustStep inp o1 = StageRes.halt effs2 out ∧
      handle_interaction_darkening inp = (effs1 ++ effs2, out, none)) ∨
    (∃ mid effs1 o1 effs2 o2,
      tokenMessageId inp.custom_id = some mid ∧
      darkenModalStep inp.modal (NordOptions.from_custom_id inp.custom_id) =
        StageRes.cont effs1 o1 ∧
      darkenAdjustStep inp o1 = StageRes.cont effs2 o2 ∧
      handle_interaction_darkening inp =
        (effs1 ++ effs2 ++ (darkenFinishStep inp mid o2 o1.auto_adjust).1,
         (darkenFinishStep inp mid o2 o1.auto_adjust).2, some o2)) := by
  unfold handle_interaction_darkening
  dsimp only
  cases htm : tokenMessageId inp.custom_id with
  | none => exact Or.inl rfl
  | some mid =>
    cases hsp : (splitOnChar '-' inp.custom_id)[1]? with
    | none => exact Or.inr (Or.inl rfl)
    | some seg =>
      cases hms : darkenModalStep inp.modal (NordOptions.from_custom_id inp.custom_id) with
      | halt effs out => exact Or.inr (Or.inr (Or.inl ⟨effs, out, rfl, rfl⟩))
      | cont effs1 o1 =>
        dsimp only
        cases has : darkenAdjustStep inp o1 with
        | halt effs2 out =>
          exact Or.inr (Or.inr (Or.inr (Or.inl ⟨effs1, o1, effs2, out, rfl, has, rfl⟩)))
        | cont effs2 o2 =>
          exact Or.inr (Or.inr (Or.inr (Or.inr
            ⟨mid, effs1, o1, effs2, o2, rfl, rfl, has, rfl⟩)))

/-! ### Claim C3 — auto-adjust recomputes options from fresh statistics -/

/-- Claim C3: whenever the decoded options have `auto_adjust` set and the
handler reaches the main flow (main.rs:217, `darkenOptionsUsed` is some),
the options in force equal the statistics-derived options
(`NordOptions::from_image_information` on the freshly fetched
`ImageInformation`) with only the `start` flag carried over from the
incoming token (main.rs:214 `NordOptions {start: options.start,
..new_options}`). -/
theorem c3_auto_adjust_overwrites (inp : DarkenInput) (o2 : NordOptions)
    (hauto : (NordOptions.from_custom_id inp.custom_id).auto_adjust = true)
    (hused : darkenOptionsUsed inp = some o2) :
    o2 = { NordOptions.from_image_information inp.info with
           start := (NordOptions.from_custom_id inp.custom_id).start } := by
  unfold darkenOptionsUsed at hused
  rcases handle_darkening_decomp inp with h | h | ⟨effs, out, hms, h⟩
    | ⟨e1, o1, e2, out, hms, has, h⟩ | ⟨mid, e1, o1, e2, o2', htm, hms, has, h⟩
  · rw [h] at hused; simp at hused
  · rw [h] at hused; simp at hused
  · rw [h] at hused; simp at hused
  · rw [h] at hused; simp at hused
  · rw [h] at hused
    have ho2eq : o2' = o2 := by simpa using hused
    subst ho2eq
    rcases darkenModalStep_cont_shapes _ _ _ _ hms with ⟨_, _, rfl⟩
      | ⟨s, color, _, _, _, _, rfl⟩ <;>
      rcases darkenAdjustStep_cont_shapes _ _ _ _ has with ⟨hA, _, rfl⟩ | ⟨hA, _, rfl⟩
    · rfl
    · exact absurd hA (by simp [hauto])
    · rfl
    · exact absurd hA (by simp [hauto])

/-- Claim C3 witness: decoded options `auto_adjust = true, start = false`
lead to exactly the statistics-derived options with `start` kept false. -/
theorem c3_auto_adjust_overwrites_witness :
    NordOptions.mk false true none =
      { NordOptions.from_image_information ⟨⟨0⟩⟩ with
        start := (NordOptions.from_custom_id "darken-false-true-none-7".toList).start } :=
  c3_auto_adjust_overwrites
    { custom_id := "darken-false-true-none-7".toList, modal := ModalOutcome.transportErr,
      messageExists := true,
      messageAttachments := [⟨1000, some "image/png".toList, "u".toList⟩],
      fetchOk := true, image := 7, info := ⟨⟨0⟩⟩ }
    (NordOptions.mk false true none) (by rfl) (by rfl)

/-! ### Claim C4 — apply-flag false never touches the image -/

/-- Claim C4: for every darken interaction whose decoded apply flag
(`start`) is false, the handler never invokes the palette transform,
never produces a new image attachment, and never deletes a message; and
whenever it reaches the main flow it returns `Ok` with the trace ending
in the re-rendered control row (carrying the updated token for the
current options) and the short status line "Edited your options.". -/
theorem c4_apply_false_frame (inp : DarkenInput)
    (hstart : (NordOptions.from_custom_id inp.custom_id).start = false) :
    (∀ o, Effect.applyNord o ∉ darkenTrace inp) ∧
    (∀ content comps, Effect.editResponse content comps true ∉ darkenTrace inp) ∧
    (∀ n, Effect.deleteMessage n ∉ darkenTrace inp) ∧
    (∀ o2, darkenOptionsUsed inp = some o2 →
      darkenOutcome inp = Outcome.ok ∧
      ∃ mid pre, tokenMessageId inp.custom_id = some mid ∧
        darkenTrace inp = pre ++
          [Effect.ack,
           Effect.editResponse changeMsg (o2.build_componets mid true) false,
           Effect.editResponse editedMsg (o2.build_componets mid true) false]) := by
  unfold darkenTrace darkenOutcome darkenOptionsUsed
  rcases handle_darkening_decomp inp with h | h | ⟨effs, out, hms, h⟩
    | ⟨e1, o1, e2, out, hms, has, h⟩ | ⟨mid, e1, o1, e2, o2', htm, hms, has, h⟩ <;> rw [h]
  · simp
  · simp
  · obtain ⟨hbg, hshape⟩ := darkenModalStep_halt_shapes _ _ _ _ hms
    rcases hshape with rfl | rfl <;> simp
  · rcases darkenModalStep_cont_shapes _ _ _ _ hms with ⟨_, rfl, _⟩
      | ⟨s, color, _, _, _, rfl, _⟩ <;>
      rcases darkenAdjustStep_halt_shapes _ _ _ _ has with rfl | rfl | rfl <;> simp
  · have hstart1 : o1.start = (NordOptions.from_custom_id inp.custom_id).start := by
      rcases darkenModalStep_cont_shapes _ _ _ _ hms with ⟨_, _, rfl⟩
        | ⟨s, color, _, _, _, _, rfl⟩ <;> rfl
    have hstart2 : o2'.start = false := by
      rcases darkenAdjustStep_cont_shapes _ _ _ _ has with ⟨_, _, rfl⟩ | ⟨_, _, rfl⟩
      · exact hstart1.trans hstart
      · exact hstart1.trans hstart
    rw [darkenFinishStep_start_false inp mid o2' o1.auto_adjust hstart2]
    dsimp only
    have he1 : ∀ e ∈ e1, e = Effect.openModal := by
      rcases darkenModalStep_cont_shapes _ _ _ _ hms with ⟨_, rfl, _⟩
        | ⟨_, _, _, _, _, rfl, _⟩
      · simp
      · simp
    have he2 : ∀ e ∈ e2, e = Effect.fetchImage := by
      rcases darkenAdjustStep_cont_shapes _ _ _ _ has with ⟨_, rfl, _⟩ | ⟨_, rfl, _⟩
      · simp
      · simp
    refine ⟨?_, ?_, ?_, ?_⟩
    · intro o hmem
      rcases List.mem_append.mp hmem with hin | hin
      · rcases List.mem_append.mp hin with hin | hin
        · exact absurd (he1 _ hin) (by simp)
        · exact absurd (he2 _ hin) (by simp)
      · simp at hin
    · intro content comps hmem
      rcases List.mem_append.mp hmem with hin | hin
      · rcases List.mem_append.mp hin with hin | hin
        · exact absurd (he1 _ hin) (by simp)
        · exact absurd (he2 _ hin) (by simp)
      · simp at hin
    · intro n hmem
      rcases List.mem_append.mp hmem with hin | hin
      · rcases List.mem_append.mp hin with hin | hin
        · exact absurd (he1 _ hin) (by simp)
        · exact absurd (he2 _ hin) (by simp)
      · simp at hin
    · intro o2 hsome
      have heq : o2' = o2 := by simpa using hsome
      subst heq
      exact ⟨rfl, mid, e1 ++ e2, htm, by simp⟩

/-- Claim C4 witness: a concrete still-configuring interaction — no
transform, no new attachment, outcome `Ok`. -/
theorem c4_apply_false_frame_witness :
    (Effect.applyNord NordOptions.new ∉
      darkenTrace
        { custom_id := "darken-false-false-none-7".toList,
          modal := ModalOutcome.transportErr, messageExists := true,
          messageAttachments := [⟨1000, some "image/png".toList, "u".toList⟩],
          fetchOk := true, image := 7, info := ⟨⟨0⟩⟩ }) ∧
    darkenOutcome
        { custom_id := "darken-false-false-none-7".toList,
          modal := ModalOutcome.transportErr, messageExists := true,
          messageAttachments := [⟨1000, some "image/png".toList, "u".toList⟩],
          fetchOk := true, image := 7, info := ⟨⟨0⟩⟩ } = Outcome.ok :=
  have h := c4_apply_false_frame
    { custom_id := "darken-false-false-none-7".toList,
      modal := ModalOutcome.transportErr, messageExists := true,
      messageAttachments := [⟨1000, some "image/png".toList, "u".toList⟩],
      fetchOk := true, image := 7, info := ⟨⟨0⟩⟩ } (by rfl)
  ⟨h.1 NordOptions.new, (h.2.2.2 (NordOptions.mk false false none) (by rfl)).1⟩

/-! ### Claim C5 — the background sentinel and the modal (corrected) -/

/-- Claim C5 counterexample: the reserved sentinel `#000001` collides
with the same value submitted by the user as a literal color.  With a
sentinel-bearing token and the modal submission `"000001"`, the handler
replaces the sentinel with the parsed literal — the very same value —
and then invokes the palette transform with
`background_color = some #000001`, so "the transform is never invoked
while the background field still holds the sentinel" is false. -/
theorem c5_sentinel_collision_counterexample :
    Effect.applyNord (NordOptions.mk true false (some nordSentinel)) ∈
      darkenTrace
        { custom_id := "darken-true-false-000001-5".toList,
          modal := ModalOutcome.submitted "000001".toList, messageExists := true,
          messageAttachments := [⟨1000, some "image/png".toList, "u".toList⟩],
          fetchOk := true, image := 7, info := ⟨⟨0⟩⟩ } := by decide

/-- Claim C5 (amended): when the decoded background is the `#000001`
sentinel, the modal prompt is the first effect (so it precedes any
transform); the transform can only run after a submitted color parsed
successfully, and any transform invocation carries either that literal
parsed color or the auto-adjust-recomputed background — in particular, if
the user's submitted color is not itself `#000001`, the transform never
sees the sentinel. -/
theorem c5_sentinel_modal (inp : DarkenInput)
    (hbg : (NordOptions.from_custom_id inp.custom_id).background_color =
      some nordSentinel) :
    (darkenTrace inp ≠ [] → (darkenTrace inp).head? = some Effect.openModal) ∧
    (∀ o, Effect.applyNord o ∈ darkenTrace inp →
      ∃ s color, inp.modal = ModalOutcome.submitted s ∧
        RgbColor.from_hex s = Except.ok color ∧
        (o.background_color = some color ∨ o.background_color = none) ∧
        (color ≠ nordSentinel → o.background_color ≠ some nordSentinel)) := by
  unfold darkenTrace
  rcases handle_darkening_decomp inp with h | h | ⟨effs, out, hms, h⟩
    | ⟨e1, o1, e2, out, hms, has, h⟩ | ⟨mid, e1, o1, e2, o2', htm, hms, has, h⟩ <;> rw [h]
  · simp
  · simp
  · obtain ⟨_, hshape⟩ := darkenModalStep_halt_shapes _ _ _ _ hms
    rcases hshape with rfl | rfl <;> simp
  · rcases darkenModalStep_cont_shapes _ _ _ _ hms with ⟨hnb, _, _⟩
      | ⟨s, color, _, hm, hfh, rfl, ho1⟩
    · exact absurd hbg hnb
    · rcases darkenAdjustStep_halt_shapes _ _ _ _ has with rfl | rfl | rfl <;> simp
  · rcases darkenModalStep_cont_shapes _ _ _ _ hms with ⟨hnb, _, _⟩
      | ⟨s, color, _, hm, hfh, rfl, ho1⟩
    · exact absurd hbg hnb
    · constructor
      · intro _
        simp
      · intro o hmem
        refine ⟨s, color, hm, hfh, ?_⟩
        have ho : o = o2' := by
          rcases List.mem_append.mp hmem with hin | hin
          · rcases List.mem_append.mp hin with hin | hin
            · simp at hin
            · exfalso
              rcases darkenAdjustStep_cont_shapes _ _ _ _ has with ⟨_, rfl, _⟩ | ⟨_, rfl, _⟩
              · simp at hin
              · simp at hin
          · exact darkenFinishStep_applyNord _ _ _ _ _ hin
        rw [ho]
        have hbgo : o2'.background_color = some color ∨ o2'.background_color = none := by
          rcases darkenAdjustStep_cont_shapes _ _ _ _ has with ⟨_, _, rfl⟩ | ⟨_, _, rfl⟩
          · exact Or.inr rfl
          · rw [ho1]
            exact Or.inl rfl
        refine ⟨hbgo, ?_⟩
        intro hcns hcontra
        rcases hbgo with hb | hb
        · rw [hb] at hcontra
          exact hcns (Option.some.inj hcontra)
        · rw [hb] at hcontra
          exact Option.noConfusion hcontra

/-- Claim C5 witness: a sentinel-bearing token with modal submission
`"aabbcc"` — the modal opens first, and the transform runs with the
parsed literal `#aabbcc`, not the sentinel. -/
theorem c5_sentinel_modal_witness :
    (darkenTrace
        { custom_id := "darken-true-false-000001-8".toList,
          modal := ModalOutcome.submitted "aabbcc".toList, messageExists := true,
          messageAttachments := [⟨1000, some "image/png".toList, "u".toList⟩],
          fetchOk := true, image := 3, info := ⟨⟨0⟩⟩ }).head? =
      some Effect.openModal ∧
    (∃ s color, (ModalOutcome.submitted "aabbcc".toList : ModalOutcome) =
        ModalOutcome.submitted s ∧
      RgbColor.from_hex s = Except.ok color ∧
      ((NordOptions.mk true false (some ⟨170, 187, 204⟩)).background_color = some color ∨
        (NordOptions.mk true false (some ⟨170, 187, 204⟩)).background_color = none) ∧
      (color ≠ nordSentinel →
        (NordOptions.mk true false (some ⟨170, 187, 204⟩)).background_color ≠
          some nordSentinel)) :=
  have h := c5_sentinel_modal
    { custom_id := "darken-true-false-000001-8".toList,
      modal := ModalOutcome.submitted "aabbcc".toList, messageExists := true,
      messageAttachments := [⟨1000, some "image/png".toList, "u".toList⟩],
      fetchOk := true, image := 3, info := ⟨⟨0⟩⟩ } (by rfl)
  ⟨h.1 (by decide), h.2 (NordOptions.mk true false (some ⟨170, 187, 204⟩)) (by decide)⟩
